import Mathlib

/-!
Shallow embedding of the podcast-generator workflow (src/app.py and
src/database.py) for checking the natural-language specification.

Modelling conventions:
* Encoded audio bytes are `List Nat`.
* A pydub `AudioSegment` is a free monoid of tokens: an opaque clip (with a
  duration in ms plus the opaque payload) or a run of silence.  `+` on
  segments is list append, `AudioSegment.silent(d)` is `[silence d]`,
  `AudioSegment.empty()` is `[]`, `len(a)` is the summed duration.
* A Python `dict` (insertion ordered, unique keys) is an association list;
  `d[k]` is `List.lookup` with `none` standing for the raised `KeyError`.
* Fallible operations return `Option`/`Except`; `none`/`.error` stands for a
  raised exception.
* The text-to-speech collaborator is an oracle parameter
  `synth : String → String → VoiceParams → Option Audio`
  ((text, voice_id, settings) ↦ audio or failure).
-/

namespace PodcastGen

/-- Encoded audio bytes (an mp3 payload, a base64 payload, ...). -/
abbrev Bytes := List Nat

/-- One token of a pydub audio segment: an opaque synthesized clip (duration
in milliseconds plus opaque payload) or generated silence of a duration. -/
inductive AudioTok where
  | clip : Nat → Bytes → AudioTok
  | silence : Nat → AudioTok
deriving DecidableEq, Repr

/-- A pydub `AudioSegment`: a concatenation of tokens. -/
abbrev Audio := List AudioTok

/-- `AudioSegment.silent(duration=d)`. -/
def silent (d : Nat) : Audio := [AudioTok.silence d]

/-- `len(a)` on a pydub segment: total duration in milliseconds. -/
def durationMs (a : Audio) : Nat :=
  (a.map fun t => match t with
    | .clip d _ => d
    | .silence d => d).sum

/-- One dialogue line of the script: `{'speaker': ..., 'text': ..., 'uid': ...}`
(the `uid` key is absent until step 3 first runs, hence `Option`). -/
structure Line where
  speaker : String
  text : String
  uid : Option String
deriving DecidableEq, Repr

/-- Per-speaker synthesis parameters (floats in the source, modelled as ℚ). -/
structure VoiceParams where
  stability : ℚ
  similarity_boost : ℚ
  style : ℚ
deriving DecidableEq, Repr

/-- The `st.session_state.config` dict: static text fields plus the
speaker → voice-name map and the per-speaker settings map (`intro_music`
is constantly `None` in the source and is carried only by the encoder). -/
structure Config where
  intro_text : String
  intro_voice : String
  outro_text : String
  outro_voice : String
  voice_settings : VoiceParams
  podcasters : List (String × String)
  voice_settings_per_speaker : List (String × VoiceParams)
deriving DecidableEq, Repr

/-- The cached clip list `st.session_state.audio_segments`:
(label, audio) pairs. -/
abbrev ClipCache := List (String × Audio)

/-! ## Assembly engine (app.py `step_6`, lines 462–475)

The finalize handler folds the cached clips into three buckets:

    intro_audio = AudioSegment.empty() ... etc
    for i, (label, audio) in enumerate(st.session_state.audio_segments):
        pause = AudioSegment.silent(duration=300)
        if i == 0:                      intro_audio += audio + pause
        elif i == len(segments) - 1:    outro_audio += audio + pause
        else:                           hosts_discussion += audio + pause
-/

/-- The three assembly buckets. -/
structure Buckets where
  intro : Audio
  hosts_discussion : Audio
  outro : Audio
deriving DecidableEq, Repr

/-- The loop body fold of `step_6`, indexed exactly like `enumerate`. -/
def assembleGo (n : Nat) : Nat → List (String × Audio) → Buckets → Buckets
  | _, [], b => b
  | i, (_, audio) :: rest, b =>
    let pause := silent 300
    let b' :=
      if i = 0 then
        { b with intro := b.intro ++ audio ++ pause }
      else if i = n - 1 then
        { b with outro := b.outro ++ audio ++ pause }
      else
        { b with hosts_discussion := b.hosts_discussion ++ audio ++ pause }
    assembleGo n (i + 1) rest b'

/-- `assemble`: the clip-partitioning loop of the finalize handler. -/
def assemble (segs : ClipCache) : Buckets :=
  assembleGo segs.length 0 segs ⟨[], [], []⟩

/-- Each clip contributes itself followed by a fixed 300 ms pause. -/
def withPause (a : Audio) : Audio := a ++ silent 300

/-- Spec-side partition (from the spec's words): first clip → intro, last
clip → outro (only when at least two clips), strictly-between clips →
discussion; one clip → intro only; zero clips → all empty.  Each folded
clip is followed by the 300 ms pause. -/
def assembleSpec (segs : ClipCache) : Buckets :=
  match segs with
  | [] => ⟨[], [], []⟩
  | first :: rest =>
    match rest.getLast? with
    | none => ⟨withPause first.2, [], []⟩
    | some last =>
        ⟨withPause first.2, (rest.dropLast.map fun p => withPause p.2).flatten,
         withPause last.2⟩

/-- `export(...) if len(bucket) > 0 else None`: an empty bucket is reported
as no audio. -/
def exportBucket (a : Audio) : Option Audio :=
  if durationMs a > 0 then some a else none

lemma assembleGo_append (n : Nat) (xs ys : List (String × Audio)) :
    ∀ (i : Nat) (b : Buckets),
    assembleGo n i (xs ++ ys) b =
      assembleGo n (i + xs.length) ys (assembleGo n i xs b) := by
  induction xs with
  | nil => intro i b; simp [assembleGo]
  | cons hd tl ih =>
      intro i b
      rcases hd with ⟨l, a⟩
      simp only [List.cons_append, assembleGo, List.length_cons, List.append_eq]
      rw [ih]
      rw [show i + 1 + tl.length = i + (tl.length + 1) from by omega]

lemma assembleGo_mid (rest : List (String × Audio)) :
    ∀ (n i : Nat) (b : Buckets), 0 < i → i + rest.length < n →
    assembleGo n i rest b =
      ⟨b.intro,
       b.hosts_discussion ++ (rest.map fun p => withPause p.2).flatten,
       b.outro⟩ := by
  induction rest with
  | nil => intro n i b _ _; simp [assembleGo]
  | cons hd tl ih =>
      intro n i b hi hlt
      rcases hd with ⟨l, a⟩
      have hne : i ≠ 0 := Nat.pos_iff_ne_zero.mp hi
      have hne' : i ≠ n - 1 := by
        simp only [List.length_cons] at hlt; omega
      simp only [assembleGo, if_neg hne, if_neg hne']
      rw [ih n (i + 1)]
      · simp [withPause, List.append_assoc]
      · omega
      · simp only [List.length_cons] at hlt; omega

lemma assembleGo_last (n : Nat) (p : String × Audio) (b : Buckets)
    (hn : 1 < n) :
    assembleGo n (n - 1) [p] b =
      ⟨b.intro, b.hosts_discussion, b.outro ++ withPause p.2⟩ := by
  rcases p with ⟨l, a⟩
  have hne : n - 1 ≠ 0 := by omega
  simp [assembleGo, if_neg hne, withPause]

lemma assembleGo_first (n : Nat) (p : String × Audio) :
    assembleGo n 0 [p] ⟨[], [], []⟩ = ⟨withPause p.2, [], []⟩ := by
  rcases p with ⟨l, a⟩
  simp [assembleGo, withPause]

/-- Characterisation of `assemble` by the spec-side partition. -/
theorem assemble_eq_spec (segs : ClipCache) : assemble segs = assembleSpec segs := by
  match segs with
  | [] => rfl
  | [(l, a)] =>
      simp [assemble, assembleSpec, assembleGo, withPause]
  | (l₀, a₀) :: (l₁, a₁) :: rest =>
      have hcons : ((l₁, a₁) :: rest : List (String × Audio)) ≠ [] := by simp
      have hsplit :
          (l₁, a₁) :: rest =
            ((l₁, a₁) :: rest).dropLast ++ [((l₁, a₁) :: rest).getLast hcons] :=
        (List.dropLast_append_getLast hcons).symm
      set mid := ((l₁, a₁) :: rest).dropLast with hmid
      set lastp := ((l₁, a₁) :: rest).getLast hcons with hlast
      rw [hsplit]
      have hmidlen : mid.length = rest.length := by
        rw [hmid]; simp
      unfold assemble
      set n := ((l₀, a₀) :: (mid ++ [lastp])).length with hndef
      have hn : n = mid.length + 2 := by
        rw [hndef]; simp
      show assembleGo n 0 ([(l₀, a₀)] ++ (mid ++ [lastp])) ⟨[], [], []⟩ = _
      rw [assembleGo_append, assembleGo_append, assembleGo_first]
      rw [assembleGo_mid mid n _ _ (by simp) (by simp; omega)]
      rw [show (0 + List.length [(l₀, a₀)] + mid.length) = n - 1 by simp; omega]
      rw [assembleGo_last n lastp _ (by omega)]
      have hspec :
          assembleSpec ((l₀, a₀) :: (mid ++ [lastp])) =
            ⟨withPause a₀, (mid.map fun p => withPause p.2).flatten,
             withPause lastp.2⟩ := by
        simp only [assembleSpec, List.getLast?_concat, List.dropLast_concat]
      rw [hspec]
      simp [withPause]

lemma assembleSpec_cons (p : String × Audio) (rest : List (String × Audio)) :
    assembleSpec (p :: rest) =
      match rest.getLast? with
      | none => ⟨withPause p.2, [], []⟩
      | some last =>
          ⟨withPause p.2, (rest.dropLast.map fun q => withPause q.2).flatten,
           withPause last.2⟩ := rfl

/-- The clips (audio only) that feed the intro bucket: the first clip. -/
def introClips (segs : ClipCache) : List Audio :=
  match segs with
  | [] => []
  | p :: _ => [p.2]

/-- The clips that feed the outro bucket: the last clip, only when there are
at least two clips. -/
def outroClips (segs : ClipCache) : List Audio :=
  match segs with
  | [] => []
  | _ :: rest =>
    match rest.getLast? with
    | none => []
    | some q => [q.2]

/-- The clips that feed the discussion bucket: the clips strictly between
the first and the last, in order. -/
def discussionClips (segs : ClipCache) : List Audio :=
  match segs with
  | [] => []
  | _ :: rest => rest.dropLast.map (·.2)

/-- C2.  `assemble` partitions by position only: with at least two clips the
intro bucket derives from clip 1 only, the outro bucket from clip N only and
the discussion bucket from clips 2..N-1 in order; with exactly one clip the
single clip goes to the intro bucket and the outro and discussion buckets
are empty and reported as no audio; with zero clips all three buckets are
empty.  (app.py, step_6, lines 462–481.) -/
theorem assemble_partitions_by_position :
    (∀ (first last : String × Audio) (mid : List (String × Audio)),
        assemble (first :: (mid ++ [last])) =
          ⟨withPause first.2, (mid.map fun p => withPause p.2).flatten,
           withPause last.2⟩) ∧
    (∀ p : String × Audio,
        assemble [p] = ⟨withPause p.2, [], []⟩ ∧
        exportBucket (assemble [p]).hosts_discussion = none ∧
        exportBucket (assemble [p]).outro = none) ∧
    assemble ([] : ClipCache) = ⟨[], [], []⟩ := by
  refine ⟨?_, ?_, rfl⟩
  · intro first last mid
    rw [assemble_eq_spec, assembleSpec_cons]
    simp only [List.getLast?_concat, List.dropLast_concat]
  · intro p
    rw [assemble_eq_spec]
    simp [assembleSpec_cons, exportBucket, durationMs]

/-- C7.  Every clip folded into a bucket is immediately followed by a fixed
300 ms silence — including the final clip of each bucket (no post-hoc
trimming): every bucket's payload is exactly the concatenation, in order, of
clip-plus-300-ms-silence for each of the clips routed to it.
(app.py, step_6, lines 467–475.) -/
theorem assemble_appends_pause_after_every_clip (segs : ClipCache) :
    (assemble segs).intro = ((introClips segs).map withPause).flatten ∧
    (assemble segs).hosts_discussion =
      ((discussionClips segs).map withPause).flatten ∧
    (assemble segs).outro = ((outroClips segs).map withPause).flatten := by
  rw [assemble_eq_spec]
  match segs with
  | [] => exact ⟨rfl, rfl, rfl⟩
  | first :: rest =>
      cases hql : rest.getLast? with
      | none =>
          have : rest = [] := by
            cases rest with
            | nil => rfl
            | cons x xs => rw [List.getLast?_eq_getLast _ (by simp)] at hql; cases hql
          subst this
          simp [assembleSpec, introClips, outroClips, discussionClips]
      | some q =>
          simp only [assembleSpec_cons, hql, introClips, outroClips,
            discussionClips]
          refine ⟨by simp, ?_, by simp⟩
          simp [List.map_map, Function.comp_def]

/-! ## Synthesis and the line audio cache (app.py `generate_audio`, `step_5`) -/

/-- The text-to-speech collaborator:
(text, voice_id, settings) ↦ audio, or failure (`SynthesisError`). -/
abbrev Synth := String → String → VoiceParams → Option Audio

/-- `st.session_state.available_voices`, flattened to name → voice_id
(the sample list plays no role in the cache contract). -/
abbrev VoiceDir := List (String × String)

/-- `generate_audio(text, voice_id, speaker)` (app.py, lines 84–101): read
the speaker's entry of `config['voice_settings_per_speaker']` (a missing
key raises `KeyError`, hence `none`) and call the collaborator with the
current settings. -/
def generate_audio (synth : Synth) (config : Config)
    (text voice_id speaker : String) : Option Audio :=
  match config.voice_settings_per_speaker.lookup speaker with
  | none => none
  | some vs => synth text voice_id vs

/-- One iteration of the `Generate All Audio` loop (app.py, lines 407–415):
`speaker = line['speaker']` (no re-normalization),
`voice_name = config['podcasters'][speaker]`,
`available_voices[voice_name]['voice_id']`, synthesize, and label the clip
`"Line i+1"`. -/
def genClip (synth : Synth) (voices : VoiceDir) (config : Config)
    (i : Nat) (line : Line) : Option (String × Audio) :=
  match config.podcasters.lookup line.speaker with
  | none => none
  | some voice_name =>
    match voices.lookup voice_name with
    | none => none
    | some voice_id =>
      match generate_audio synth config line.text voice_id line.speaker with
      | none => none
      | some audio => some ("Line " ++ toString (i + 1), audio)

/-- The `Generate All Audio` loop from position `i`: the cache built so far
together with a success flag.  On a failure the clips appended before the
failing line remain in the cache (the loop appends in place after the cache
was reset to `[]`). -/
def generateAllGo (synth : Synth) (voices : VoiceDir) (config : Config) :
    Nat → List Line → ClipCache × Bool
  | _, [] => ([], true)
  | i, line :: rest =>
    match genClip synth voices config i line with
    | none => ([], false)
    | some c =>
      let r := generateAllGo synth voices config (i + 1) rest
      (c :: r.1, r.2)

/-- The `Generate All Audio` handler (app.py, lines 403–417):
`st.session_state.audio_segments = []` discards the prior cache up front,
then the loop appends one clip per line; an uncaught synthesis failure
leaves the partially rebuilt cache in session state.  `prior` is the cache
before the click — the source never reads it again. -/
def generateAll (synth : Synth) (voices : VoiceDir) (config : Config)
    (script : List Line) (prior : ClipCache) : ClipCache × Bool :=
  generateAllGo synth voices config 0 script

lemma generateAllGo_failure (synth : Synth) (voices : VoiceDir)
    (config : Config) :
    ∀ (lines : List Line) (i : Nat),
    (generateAllGo synth voices config i lines).2 = false →
    ∃ k, ∃ hk : k < lines.length,
      genClip synth voices config (i + k) (lines.get ⟨k, hk⟩) = none ∧
      (generateAllGo synth voices config i lines).1 =
        (generateAllGo synth voices config i (lines.take k)).1 ∧
      (generateAllGo synth voices config i (lines.take k)).2 = true := by
  intro lines
  induction lines with
  | nil => intro i h; simp [generateAllGo] at h
  | cons line rest ih =>
      intro i h
      cases hg : genClip synth voices config i line with
      | none =>
          refine ⟨0, by simp, ?_, ?_, ?_⟩
          · simpa using hg
          · simp [generateAllGo, hg]
          · simp [generateAllGo]
      | some c =>
          simp only [generateAllGo, hg] at h
          obtain ⟨k, hk, hfail, hcache, hok⟩ := ih (i + 1) h
          refine ⟨k + 1, by simpa using Nat.succ_lt_succ hk, ?_, ?_, ?_⟩
          · simpa [Nat.add_comm, Nat.add_assoc, Nat.add_left_comm] using hfail
          · simp [generateAllGo, hg, hcache]
          · simp [generateAllGo, hg, hok]

lemma genClip_label (synth : Synth) (voices : VoiceDir) (config : Config)
    (i : Nat) (line : Line) (c : String × Audio)
    (h : genClip synth voices config i line = some c) :
    c.1 = "Line " ++ toString (i + 1) := by
  unfold genClip at h
  repeat' split at h
  all_goals cases h
  rfl

/-- The cache `generateAll` builds is canonically labelled: the entry at
cache index `j` carries label "Line j+1" (the hypothesis under which the
regenerate frame property is stated). -/
lemma generateAll_labels_canonical (synth : Synth) (voices : VoiceDir)
    (config : Config) (script : List Line) (prior : ClipCache) (j : Nat)
    (l : String) (a : Audio)
    (h : (generateAll synth voices config script prior).1[j]? = some (l, a)) :
    l = "Line " ++ toString (j + 1) := by
  have main : ∀ (lines : List Line) (i j : Nat) (l : String) (a : Audio),
      (generateAllGo synth voices config i lines).1[j]? = some (l, a) →
      l = "Line " ++ toString (i + j + 1) := by
    intro lines
    induction lines with
    | nil => intro i j l a h; simp [generateAllGo] at h
    | cons line rest ih =>
        intro i j l a h
        cases hg : genClip synth voices config i line with
        | none => simp [generateAllGo, hg] at h
        | some c =>
            simp only [generateAllGo, hg] at h
            cases j with
            | zero =>
                simp only [List.getElem?_cons_zero, Option.some.injEq] at h
                have hc := genClip_label synth voices config i line c hg
                rw [h] at hc
                simpa using hc
            | succ j' =>
                simp only [List.getElem?_cons_succ] at h
                have := ih (i + 1) j' l a h
                rw [this]
                have harith : i + 1 + j' + 1 = i + (j' + 1) + 1 := by omega
                rw [harith]
  have := main script 0 j l a h
  simpa using this

/-- C1 counterexample inputs: a one-line script whose synthesis fails, with
a non-empty prior cache. -/
def defaultParams : VoiceParams := ⟨1/2, 4/5, 1/10⟩

def c1Config : Config :=
  { intro_text := "", intro_voice := "", outro_text := "", outro_voice := ""
    voice_settings := defaultParams
    podcasters := [("HostA", "Rachel")]
    voice_settings_per_speaker := [("HostA", defaultParams)] }

def c1Voices : VoiceDir := [("Rachel", "vid1")]

def c1Script : List Line := [⟨"HostA", "Hi there", none⟩]

def c1Prior : ClipCache := [("Line 1", [AudioTok.clip 1000 [7]])]

/-- The always-failing collaborator. -/
def synthFail : Synth := fun _ _ _ => none

/-- C1 counterexample.  The claim says a failed `generateAll` leaves the
clip cache bit-identical to the cache before the call; in the source the
cache is cleared before the loop, so a failing call over a non-empty prior
cache ends with a cache different from the prior one. -/
theorem generateAll_failure_not_cache_preserving :
    (generateAll synthFail c1Voices c1Config c1Script c1Prior).2 = false ∧
    (generateAll synthFail c1Voices c1Config c1Script c1Prior).1 ≠ c1Prior := by
  constructor
  · rfl
  · intro h
    simp [generateAll, generateAllGo, genClip, generate_audio, c1Config,
      c1Voices, c1Script, c1Prior, synthFail] at h

/-- C1 (amended).  When `generateAll` fails on some line's synthesis, the
prior cache has already been discarded and the cache after the failed call
holds exactly the clips of the longest successfully synthesized prefix of
the script (the lines before the first failing one): the result is the same
as a fully successful `generateAll` over that prefix, and is independent of
the prior cache. -/
theorem generateAll_failure_commits_partial_prefix
    (synth : Synth) (voices : VoiceDir) (config : Config)
    (script : List Line) (prior : ClipCache)
    (h : (generateAll synth voices config script prior).2 = false) :
    ∃ k, ∃ hk : k < script.length,
      genClip synth voices config k (script.get ⟨k, hk⟩) = none ∧
      (∀ prior' : ClipCache,
        (generateAll synth voices config script prior').1 =
          (generateAll synth voices config (script.take k) prior').1 ∧
        (generateAll synth voices config (script.take k) prior').2 = true) := by
  obtain ⟨k, hk, hfail, hcache, hok⟩ :=
    generateAllGo_failure synth voices config script 0 h
  refine ⟨k, hk, by simpa using hfail, fun prior' => ⟨?_, ?_⟩⟩
  · exact hcache
  · exact hok

/-- Witness for the amended C1: a concrete failing call where the committed
cache is the (empty) successful prefix. -/
theorem generateAll_failure_commits_partial_prefix_witness :
    ∃ k, ∃ hk : k < c1Script.length,
      genClip synthFail c1Voices c1Config k (c1Script.get ⟨k, hk⟩) = none ∧
      (∀ prior' : ClipCache,
        (generateAll synthFail c1Voices c1Config c1Script prior').1 =
          (generateAll synthFail c1Voices c1Config (c1Script.take k) prior').1 ∧
        (generateAll synthFail c1Voices c1Config (c1Script.take k) prior').2 =
          true) :=
  generateAll_failure_commits_partial_prefix synthFail c1Voices c1Config
    c1Script c1Prior rfl

/-! ## Intro/Outro speaker re-normalization (app.py `step_3` and `step_5`) -/

/-- Python `s.startswith(p)`, modelled on the character list. -/
def pyStartswith (s p : String) : Bool :=
  p.data.isPrefixOf s.data

/-- Does the line's text carry the reserved marker?
(app.py, lines 220–221.) -/
def hasIntroOutroMarker (t : String) : Bool :=
  pyStartswith t "Intro:" || pyStartswith t "Outro:"

/-- The speaker shown by the edit step for a line (app.py step_3,
lines 220–226): a marker line is displayed as "Presenter", disabled. -/
def step3DisplaySpeaker (line : Line) : String :=
  if hasIntroOutroMarker line.text then "Presenter" else line.speaker

/-- The edit step's write-back into the stored script
(`st.session_state.script[i]['speaker'] = 'Presenter'`, line 223). -/
def step3NormalizeLine (line : Line) : Line :=
  if hasIntroOutroMarker line.text then { line with speaker := "Presenter" }
  else line

/-- The speaker consulted by `Generate All Audio` for voice selection
(app.py step_5, line 408): the stored field, with no re-normalization. -/
def step5SynthSpeaker (line : Line) : String := line.speaker

/-- C3 counterexample inputs: a marker line whose stored speaker field was
last written as "HostA" (e.g. loaded from JSON without visiting the edit
step), a config and voice directory in which only "Presenter" has a voice,
and a collaborator that always succeeds. -/
def c3Line : Line := ⟨"HostA", "Intro: welcome", none⟩

def c3Config : Config :=
  { intro_text := "", intro_voice := "", outro_text := "", outro_voice := ""
    voice_settings := defaultParams
    podcasters := [("Presenter", "Eric")]
    voice_settings_per_speaker :=
      [("HostA", defaultParams), ("Presenter", defaultParams)] }

def c3Voices : VoiceDir := [("Eric", "eid")]

def synthOk : Synth := fun _ _ _ => some [AudioTok.clip 1000 [1]]

/-- C3 counterexample.  The claim says every read of a marker line's
speaker — in particular the one `generateAll` uses to select the voice —
reports "Presenter" regardless of the stored field.  In the source,
step_5's `speaker = line['speaker']` (line 408) returns the stored field
unchanged: for the marker line stored with speaker "HostA" it reports
"HostA", and the very same `generateAll` call fails on the voice lookup
even though "Presenter" has a voice configured (while the identical line
stored with "Presenter" succeeds). -/
theorem generateAll_speaker_not_renormalized :
    step5SynthSpeaker c3Line ≠ "Presenter" ∧
    hasIntroOutroMarker c3Line.text = true ∧
    (generateAll synthOk c3Voices c3Config [c3Line] []).2 = false ∧
    (generateAll synthOk c3Voices c3Config
      [⟨"Presenter", "Intro: welcome", none⟩] []).2 = true := by
  refine ⟨by decide, by decide, rfl, rfl⟩

/-- C3 (amended).  A line whose text starts with "Intro:" or "Outro:" is
forced to speaker "Presenter" by the edit step on every render — both in
the display and in the write-back to the stored field, idempotently and
regardless of what was last written — but `generateAll` reads the stored
speaker field as-is, so it reports "Presenter" only once the edit step's
normalization has been applied to the stored line. -/
theorem marker_line_forced_to_presenter_on_edit_read (line : Line)
    (h : hasIntroOutroMarker line.text = true) :
    step3DisplaySpeaker line = "Presenter" ∧
    (step3NormalizeLine line).speaker = "Presenter" ∧
    step3NormalizeLine (step3NormalizeLine line) = step3NormalizeLine line ∧
    step5SynthSpeaker (step3NormalizeLine line) = "Presenter" := by
  refine ⟨?_, ?_, ?_, ?_⟩ <;>
    simp [step3DisplaySpeaker, step3NormalizeLine, step5SynthSpeaker, h]

/-- Witness for the amended C3 at a concrete marker line with a foreign
stored speaker. -/
theorem marker_line_forced_to_presenter_on_edit_read_witness :
    step3DisplaySpeaker ⟨"HostB", "Outro: bye", none⟩ = "Presenter" ∧
    (step3NormalizeLine ⟨"HostB", "Outro: bye", none⟩).speaker = "Presenter" ∧
    step3NormalizeLine (step3NormalizeLine ⟨"HostB", "Outro: bye", none⟩) =
      step3NormalizeLine ⟨"HostB", "Outro: bye", none⟩ ∧
    step5SynthSpeaker (step3NormalizeLine ⟨"HostB", "Outro: bye", none⟩) =
      "Presenter" :=
  marker_line_forced_to_presenter_on_edit_read ⟨"HostB", "Outro: bye", none⟩
    (by decide)

/-! ## Regeneration of a single clip (app.py `step_5`, lines 422–439)

    line_index = int(label.split()[1]) - 1
    speaker = st.session_state.script[line_index]['speaker']
    ...
    new_audio = generate_audio(new_text, voices[podcasters[speaker]][...], speaker)
    st.session_state.script[line_index]['text'] = new_text
    st.session_state.audio_segments[i] = (label, new_audio)
-/

/-- Python `str.split()` (no separator): split on whitespace runs, dropping
empty fields; recursion over the character list with the current word
accumulated in reverse. -/
def pySplitChars : List Char → List Char → List String
  | [], [] => []
  | [], acc => [String.mk acc.reverse]
  | c :: cs, acc =>
    if c.isWhitespace then
      if acc = [] then pySplitChars cs []
      else String.mk acc.reverse :: pySplitChars cs []
    else pySplitChars cs (c :: acc)

def pySplit (s : String) : List String := pySplitChars s.data []

/-- Python `int(s)` restricted to the nonnegative decimal numerals the
clip labels carry; any other shape is a raised `ValueError` (`none`). -/
def strToNat? (s : String) : Option Nat :=
  if s.data = [] then none
  else
    s.data.foldl
      (fun acc c =>
        match acc with
        | none => none
        | some n => if c.isDigit then some (n * 10 + (c.toNat - 48)) else none)
      (some 0)

/-- `int(label.split()[1])`: the trailing number of a display label
(`label.split()[1]` raises `IndexError` when there is no second field). -/
def parseLabelNum (label : String) : Option Nat :=
  match pySplit label with
  | _ :: second :: _ => strToNat? second
  | _ => none

/-- Python list indexing: nonnegative indices below the length, negative
indices wrapping from the end, anything else an `IndexError`. -/
def pyIndex (len : Nat) (i : Int) : Option Nat :=
  if 0 ≤ i then (if i < (len : Int) then some i.toNat else none)
  else if -(len : Int) ≤ i then some ((len : Int) + i).toNat else none

/-- `script[line_index]` with Python indexing semantics. -/
def pyGet (l : List Line) (i : Int) : Option Line :=
  (pyIndex l.length i).bind fun k => l[k]?

/-- `script[line_index]['text'] = new_text`: in-place update of one line's
text field. -/
def pySetText (l : List Line) (i : Int) (t : String) : Option (List Line) :=
  (pyIndex l.length i).bind fun k =>
    (l[k]?).map fun line => l.set k { line with text := t }

/-- The regenerate handler for cache position `i` (app.py, lines 427–439):
decode the target script index from the label's trailing number, read that
line's speaker, synthesize the edited text, then commit the text into the
script and overwrite the cache entry in place, keeping the label. -/
def regenerate (synth : Synth) (voices : VoiceDir) (config : Config)
    (script : List Line) (cache : ClipCache) (i : Nat) (newText : String) :
    Option (List Line × ClipCache) :=
  match cache[i]? with
  | none => none
  | some (label, _) =>
    match parseLabelNum label with
    | none => none
    | some n =>
      let lineIndex : Int := (n : Int) - 1
      match pyGet script lineIndex with
      | none => none
      | some line =>
        match config.podcasters.lookup line.speaker with
        | none => none
        | some voice_name =>
          match voices.lookup voice_name with
          | none => none
          | some voice_id =>
            match generate_audio synth config newText voice_id line.speaker with
            | none => none
            | some newAudio =>
              match pySetText script lineIndex newText with
              | none => none
              | some script' => some (script', cache.set i (label, newAudio))

lemma pyIndex_succ (len n : Nat) :
    pyIndex len (((n + 1 : Nat) : Int) - 1) = if n < len then some n else none := by
  have h1 : (((n + 1 : Nat) : Int) - 1) = (n : Int) := by push_cast; ring
  rw [h1]
  unfold pyIndex
  rw [if_pos (Int.ofNat_nonneg n)]
  by_cases h : n < len
  · rw [if_pos (by exact_mod_cast h)]
    simp [h]
  · rw [if_neg (by exact_mod_cast h), if_neg h]

lemma pyGet_succ (l : List Line) (n : Nat) :
    pyGet l (((n + 1 : Nat) : Int) - 1) = l[n]? := by
  unfold pyGet
  rw [pyIndex_succ]
  by_cases h : n < l.length
  · simp [h]
  · rw [if_neg h]
    exact (List.getElem?_eq_none (by omega)).symm

lemma pySetText_succ (l : List Line) (n : Nat) (t : String) :
    pySetText l (((n + 1 : Nat) : Int) - 1) t =
      (l[n]?).map fun line => l.set n { line with text := t } := by
  unfold pySetText
  rw [pyIndex_succ]
  by_cases h : n < l.length
  · simp [h]
  · rw [if_neg h]
    rw [List.getElem?_eq_none (l := l) (by omega)]
    rfl

/-- C4.  A successful `regenerate(i, newText)` on a cache whose entry `i`
decodes to script line `i` (label "Line i+1", the shape `generateAll`
produces) changes only the clip at cache index `i` — keeping its label —
and the text of script line `i`; every other clip and line, and line `i`'s
speaker and uid, are unchanged, and both lengths are preserved. -/
theorem regenerate_changes_only_index_i
    (synth : Synth) (voices : VoiceDir) (config : Config)
    (script : List Line) (cache : ClipCache) (i : Nat) (newText : String)
    (label : String) (a : Audio) (script' : List Line) (cache' : ClipCache)
    (hl : cache[i]? = some (label, a))
    (hp : parseLabelNum label = some (i + 1))
    (hr : regenerate synth voices config script cache i newText =
      some (script', cache')) :
    (∀ j, j ≠ i → cache'[j]? = cache[j]?) ∧
    (∃ b, cache'[i]? = some (label, b)) ∧
    (∀ j, j ≠ i → script'[j]? = script[j]?) ∧
    (∃ line, script[i]? = some line ∧
      script'[i]? = some { line with text := newText }) ∧
    script'.length = script.length ∧ cache'.length = cache.length := by
  unfold regenerate at hr
  simp only [hl, hp, pyGet_succ] at hr
  have hclen : i < cache.length := by
    by_contra hlt
    rw [List.getElem?_eq_none (by omega)] at hl
    cases hl
  cases hline : script[i]? with
  | none => simp [hline] at hr
  | some line =>
      have hilen : i < script.length := by
        by_contra hlt
        rw [List.getElem?_eq_none (by omega)] at hline
        cases hline
      simp only [hline] at hr
      cases hvn : config.podcasters.lookup line.speaker with
      | none => simp [hvn] at hr
      | some voice_name =>
          simp only [hvn] at hr
          cases hvid : voices.lookup voice_name with
          | none => simp [hvid] at hr
          | some voice_id =>
              simp only [hvid] at hr
              cases haud : generate_audio synth config newText voice_id
                  line.speaker with
              | none => simp [haud] at hr
              | some newAudio =>
                  simp only [haud, pySetText_succ, hline, Option.map_some',
                    Option.some.injEq, Prod.mk.injEq] at hr
                  obtain ⟨hs, hc⟩ := hr
                  refine ⟨?_, ⟨newAudio, ?_⟩, ?_, ⟨line, rfl, ?_⟩, ?_, ?_⟩
                  · intro j hj
                    rw [← hc]
                    exact List.getElem?_set_ne (Ne.symm hj)
                  · rw [← hc]
                    exact List.getElem?_set_eq_of_lt _ hclen
                  · intro j hj
                    rw [← hs]
                    exact List.getElem?_set_ne (Ne.symm hj)
                  · rw [← hs]
                    exact List.getElem?_set_eq_of_lt _ hilen
                  · rw [← hs, List.length_set]
                  · rw [← hc, List.length_set]

/-- Expected outputs of the concrete C4 regeneration. -/
def w4ScriptOut : List Line := [⟨"HostA", "Hello again", none⟩]

def w4CacheOut : ClipCache := [("Line 1", [AudioTok.clip 1000 [1]])]

/-- Witness for C4: a concrete successful one-line regeneration. -/
theorem regenerate_changes_only_index_i_witness :
    (∀ j, j ≠ 0 → w4CacheOut[j]? = c1Prior[j]?) ∧
    (∃ b, w4CacheOut[0]? = some ("Line 1", b)) ∧
    (∀ j, j ≠ 0 → w4ScriptOut[j]? = c1Script[j]?) ∧
    (∃ line, c1Script[0]? = some line ∧
      w4ScriptOut[0]? = some { line with text := "Hello again" }) ∧
    w4ScriptOut.length = c1Script.length ∧
    w4CacheOut.length = c1Prior.length :=
  regenerate_changes_only_index_i synthOk c1Voices c1Config c1Script c1Prior
    0 "Hello again" "Line 1" [AudioTok.clip 1000 [7]] w4ScriptOut w4CacheOut
    rfl rfl rfl

/-- C5.  The regenerate handler resolves its target script line purely from
the label's trailing number N (script index N-1), never from the clip's
cache position `i`: when N exceeds the current script length the resolution
raises an `IndexError` (the operation fails, nothing is regenerated), and
when a regeneration succeeds the script line whose text changes is always
line N-1, whatever `i` is. -/
theorem regenerate_resolves_target_from_label
    (synth : Synth) (voices : VoiceDir) (config : Config)
    (script : List Line) (cache : ClipCache) (i : Nat) (newText : String)
    (label : String) (a : Audio) (n : Nat)
    (hc : cache[i]? = some (label, a))
    (hp : parseLabelNum label = some n) :
    (script.length < n →
      regenerate synth voices config script cache i newText = none) ∧
    (∀ script' cache', 1 ≤ n →
      regenerate synth voices config script cache i newText =
        some (script', cache') →
      ∃ line, script[n - 1]? = some line ∧
        script'[n - 1]? = some { line with text := newText } ∧
        ∀ j, j ≠ n - 1 → script'[j]? = script[j]?) := by
  constructor
  · intro h
    obtain ⟨m, rfl⟩ : ∃ m, n = m + 1 := ⟨n - 1, by omega⟩
    unfold regenerate
    simp only [hc, hp, pyGet_succ]
    rw [List.getElem?_eq_none (by omega)]
  · intro script' cache' hn1 hr
    obtain ⟨m, rfl⟩ : ∃ m, n = m + 1 := ⟨n - 1, by omega⟩
    simp only [Nat.add_sub_cancel]
    unfold regenerate at hr
    simp only [hc, hp, pyGet_succ] at hr
    cases hline : script[m]? with
    | none => simp [hline] at hr
    | some line =>
        simp only [hline] at hr
        cases hvn : config.podcasters.lookup line.speaker with
        | none => simp [hvn] at hr
        | some voice_name =>
            simp only [hvn] at hr
            cases hvid : voices.lookup voice_name with
            | none => simp [hvid] at hr
            | some voice_id =>
                simp only [hvid] at hr
                cases haud : generate_audio synth config newText voice_id
                    line.speaker with
                | none => simp [haud] at hr
                | some newAudio =>
                    have hmlen : m < script.length := by
                      by_contra hlt
                      rw [List.getElem?_eq_none (by omega)] at hline
                      cases hline
                    simp only [haud, pySetText_succ, hline, Option.map_some',
                      Option.some.injEq, Prod.mk.injEq] at hr
                    obtain ⟨hs, _⟩ := hr
                    refine ⟨line, rfl, ?_, ?_⟩
                    · rw [← hs]
                      exact List.getElem?_set_eq_of_lt _ hmlen
                    · intro j hj
                      rw [← hs]
                      exact List.getElem?_set_ne (Ne.symm hj)

/-- A cached clip whose label's trailing number (5) exceeds the script
length (1). -/
def w5Cache : ClipCache := [("Line 5", [AudioTok.clip 1000 [7]])]

/-- Witness for C5: with label "Line 5" over a one-line script the
regeneration fails outright. -/
theorem regenerate_resolves_target_from_label_witness :
    regenerate synthOk c1Voices c1Config c1Script w5Cache 0 "x" = none :=
  (regenerate_resolves_target_from_label synthOk c1Voices c1Config c1Script
    w5Cache 0 "x" "Line 5" [AudioTok.clip 1000 [7]] 5 rfl rfl).1 (by decide)

/-! ## Finalize step gating (app.py `step_6`, lines 444–499) -/

/-- Python `str.strip()`: drop leading and trailing whitespace. -/
def pyStrip (s : String) : String :=
  String.mk
    (((s.data.dropWhile Char.isWhitespace).reverse.dropWhile
      Char.isWhitespace).reverse)

/-- The step-6 session fields the finalize gate reads and writes:
the clip cache, the `podcast_finalized` flag (the key is absent from the
session until step 6's else-branch first runs) and the current step. -/
structure Step6State where
  audio_segments : ClipCache
  podcast_finalized : Option Bool
  current_step : Nat
deriving DecidableEq, Repr

/-- The single button step 6 offers, if any. -/
inductive Step6Action where
  | finalizeAction
  | proceedAction
deriving DecidableEq, Repr

/-- One render of step 6 (lines 451–461 and 496–497): with an empty cache
or a blank required field only a warning is shown (no action); otherwise
`podcast_finalized` is initialised to `False` if absent and the state
offers "Finalize Podcast" when not yet finalized, else "Proceed to Play
and Download". -/
def step6Render (s : Step6State) (company podcast_title : String) :
    Step6State × Option Step6Action :=
  if s.audio_segments.isEmpty then (s, none)
  else if pyStrip company = "" || pyStrip podcast_title = "" then (s, none)
  else
    let s' := { s with podcast_finalized := some (s.podcast_finalized.getD false) }
    if s'.podcast_finalized.getD false then (s', some .proceedAction)
    else (s', some .finalizeAction)

/-- Clicking the offered button (lines 461–499): "Finalize Podcast"
assembles and saves the podcast — `saveOk` is the outcome of the guarded
save — and sets `podcast_finalized` to `True` only on success (the
exception path of the try block leaves the flag as it was); "Proceed"
moves to step 7.  No path ever resets the flag to `False`. -/
def step6Click (s : Step6State) (company podcast_title : String)
    (saveOk : Bool) : Step6State :=
  match step6Render s company podcast_title with
  | (s', some .finalizeAction) =>
      if saveOk then { s' with podcast_finalized := some true } else s'
  | (s', some .proceedAction) => { s' with current_step := 7 }
  | (s', none) => s'

/-- C6.  The finalize action is offered exactly when the clip cache is
non-empty, both required text fields are non-blank and the episode is not
yet finalized; and finalizing is terminal for the in-memory episode: with
the flag set, no render ever offers the finalize action again (where the
gates pass, the offered action is "proceed" instead), and no step-6
transition ever clears the flag. -/
theorem finalize_gated_and_terminal :
    (∀ (s : Step6State) (company title : String),
      (step6Render s company title).2 = some .finalizeAction ↔
        (s.audio_segments ≠ [] ∧ pyStrip company ≠ "" ∧ pyStrip title ≠ "" ∧
         s.podcast_finalized ≠ some true)) ∧
    (∀ (s : Step6State) (company title : String),
      s.podcast_finalized = some true →
        (step6Render s company title).2 ≠ some .finalizeAction ∧
        (s.audio_segments ≠ [] → pyStrip company ≠ "" → pyStrip title ≠ "" →
          (step6Render s company title).2 = some .proceedAction) ∧
        (∀ saveOk,
          (step6Click s company title saveOk).podcast_finalized = some true)) := by
  have hrender : ∀ (s : Step6State) (company title : String),
      (step6Render s company title).2 = some .finalizeAction ↔
        (s.audio_segments ≠ [] ∧ pyStrip company ≠ "" ∧ pyStrip title ≠ "" ∧
         s.podcast_finalized ≠ some true) := by
    intro s company title
    unfold step6Render
    by_cases h1 : s.audio_segments.isEmpty
    · simp [h1, List.isEmpty_iff.mp h1]
    · by_cases h2 : pyStrip company = "" ∨ pyStrip title = ""
      · rcases h2 with h2 | h2 <;>
          simp [h1, h2, List.isEmpty_iff] at *
      · push_neg at h2
        have h1' : s.audio_segments ≠ [] := by
          simpa [List.isEmpty_iff] using h1
        by_cases h3 : s.podcast_finalized.getD false
        · have : s.podcast_finalized = some true := by
            cases hfin : s.podcast_finalized with
            | none => rw [hfin] at h3; simp [Option.getD] at h3
            | some b => rw [hfin] at h3; simp [Option.getD] at h3; rw [h3]
          simp [h1, h2.1, h2.2, h3, this, h1']
        · have : s.podcast_finalized ≠ some true := by
            intro hfin
            rw [hfin] at h3
            simp [Option.getD] at h3
          simp [h1, h2.1, h2.2, h3, this, h1']
  refine ⟨hrender, ?_⟩
  intro s company title hfin
  refine ⟨?_, ?_, ?_⟩
  · intro hact
    exact ((hrender s company title).mp hact).2.2.2 hfin
  · intro hne hc ht
    unfold step6Render
    have h1 : ¬s.audio_segments.isEmpty := by
      simpa [List.isEmpty_iff] using hne
    simp [h1, hc, ht, hfin, Option.getD]
  · intro saveOk
    unfold step6Click step6Render
    by_cases h1 : s.audio_segments.isEmpty
    · simp [h1, hfin]
    · by_cases h2 : pyStrip company = "" ∨ pyStrip title = ""
      · rcases h2 with h2 | h2 <;> simp [h1, h2, hfin]
      · push_neg at h2
        simp [h1, h2.1, h2.2, hfin, Option.getD]

/-- Witness for C6 at a concrete finalized state: the gates pass, the
offered action is "proceed", and any click keeps the flag set. -/
theorem finalize_gated_and_terminal_witness :
    (step6Render ⟨c1Prior, some true, 6⟩ "Acme" "Weekly").2 =
      some .proceedAction ∧
    (step6Click ⟨c1Prior, some true, 6⟩ "Acme" "Weekly" true).podcast_finalized =
      some true ∧
    (step6Render ⟨c1Prior, some false, 6⟩ "Acme" "Weekly").2 =
      some .finalizeAction := by
  have h := finalize_gated_and_terminal
  have h2 := h.2 ⟨c1Prior, some true, 6⟩ "Acme" "Weekly" rfl
  refine ⟨h2.2.1 (by decide) (by decide) (by decide), h2.2.2 true, ?_⟩
  exact (h.1 ⟨c1Prior, some false, 6⟩ "Acme" "Weekly").mpr
    ⟨by decide, by decide, by decide, by decide⟩

/-! ## Voice configuration defaults (app.py `step_4`, lines 250–284) -/

/-- The fixed default speaker → preferred-voice table (lines 251–255). -/
structure DefaultVoice where
  voice_id : String
  name : String
deriving DecidableEq, Repr

def default_voices : List (String × DefaultVoice) :=
  [("Host 1", ⟨"A9ATTqUUQ6GHu0coCz8t", "Hamid"⟩),
   ("Presenter", ⟨"cjVigY5qzO86Huf0OWal", "Eric"⟩),
   ("Host 2", ⟨"XrExE9yKIg1WjnnlVkGX", "Matilda"⟩)]

/-- Contiguous-sublist test over character lists. -/
def containsSub (needle : List Char) : List Char → Bool
  | [] => needle.isEmpty
  | c :: rest => needle.isPrefixOf (c :: rest) || containsSub needle rest

/-- Python `a in b` on strings: substring containment. -/
def pyInStr (a b : String) : Bool := containsSub a.data b.data

/-- First-encounter voice assignment (lines 272–284): with a default
mapping, the first available voice name containing the preferred name —
`next((voice for voice in available_voices if name in voice), available[0])`
— otherwise the first available voice; an empty voice directory raises
`IndexError`. -/
def assignVoice (available : List String) (podcaster : String) :
    Option String :=
  match available with
  | [] => none
  | first :: _ =>
    match default_voices.lookup podcaster with
    | some dv => some ((available.find? fun v => pyInStr dv.name v).getD first)
    | none => some first

/-- C8.  With a non-empty available-voice set: a speaker with a default
mapping whose preferred name matches some available voice gets the first
matching voice; if the preferred name matches no available voice, or the
speaker has no default mapping at all, the first available voice is
assigned; in particular, a singleton voice set and no configured default
always resolves to that single voice and never fails. -/
theorem voice_default_assignment
    (available : List String) (podcaster first : String)
    (rest : List String) (hav : available = first :: rest) :
    (∀ (dv : DefaultVoice) (v : String),
      default_voices.lookup podcaster = some dv →
      (available.find? fun u => pyInStr dv.name u) = some v →
      assignVoice available podcaster = some v ∧ v ∈ available ∧
        pyInStr dv.name v = true) ∧
    (∀ dv : DefaultVoice,
      default_voices.lookup podcaster = some dv →
      (available.find? fun u => pyInStr dv.name u) = none →
      assignVoice available podcaster = some first) ∧
    (default_voices.lookup podcaster = none →
      assignVoice available podcaster = some first) ∧
    (∀ (p v : String), default_voices.lookup p = none →
      assignVoice [v] p = some v) := by
  subst hav
  refine ⟨?_, ?_, ?_, ?_⟩
  · intro dv v hdv hfind
    refine ⟨?_, List.mem_of_find?_eq_some hfind, List.find?_some hfind⟩
    unfold assignVoice
    simp [hdv, hfind]
  · intro dv hdv hfind
    unfold assignVoice
    simp [hdv, hfind]
  · intro hdv
    unfold assignVoice
    simp [hdv]
  · intro p v hdv
    unfold assignVoice
    simp [hdv]

/-- Witness for C8: "Presenter" (preferred name "Eric") resolves to the
first available voice containing "Eric"; a speaker with no default over a
singleton voice set resolves to that voice. -/
theorem voice_default_assignment_witness :
    assignVoice ["Ambrose Eric II", "Hamid Raw"] "Presenter" =
      some "Ambrose Eric II" ∧
    assignVoice ["OnlyVoice"] "Narrator" = some "OnlyVoice" := by
  have h := voice_default_assignment ["Ambrose Eric II", "Hamid Raw"]
    "Presenter" "Ambrose Eric II" ["Hamid Raw"] rfl
  refine ⟨(h.1 ⟨"cjVigY5qzO86Huf0OWal", "Eric"⟩ "Ambrose Eric II"
    rfl rfl).1, ?_⟩
  exact h.2.2.2 "Narrator" "OnlyVoice" rfl

/-! ## Podcast persistence (database.py `save_podcast`, lines 49–84)

    INSERT INTO podcasts (title) VALUES (?)
    if intro_audio: INSERT ... ('intro', ...)
    if hosts_audio: INSERT ... ('hosts_discussion', ...)
    if outro_audio: INSERT ... ('outro', ...)
    commit / on exception: rollback and re-raise
-/

structure PodcastRow where
  id : Nat
  title : String
deriving DecidableEq, Repr

structure SegmentRow where
  id : Nat
  podcast_id : Nat
  segment_type : String
  audio_data : Bytes
deriving DecidableEq, Repr

/-- The podcast store: the two tables plus the AUTOINCREMENT counters. -/
structure PodcastDB where
  podcasts : List PodcastRow
  segments : List SegmentRow
  nextPodcastId : Nat
  nextSegmentId : Nat
deriving DecidableEq, Repr

/-- Python truthiness of `intro_audio` etc.: present and non-empty bytes. -/
def bytesTruthy : Option Bytes → Bool
  | none => false
  | some b => !b.isEmpty

/-- The conditional segment INSERTs of the transaction, in source order;
`ok k` is the fate of the k-th INSERT of the transaction; a failed INSERT
aborts (`none`). -/
def insertSegments (ok : Nat → Bool) (pid : Nat) :
    List (String × Option Bytes) → PodcastDB → Nat → Option PodcastDB
  | [], work, _ => some work
  | (ty, payload) :: rest, work, k =>
    if bytesTruthy payload then
      if ok k then
        insertSegments ok pid rest
          { work with
            segments := work.segments ++
              [⟨work.nextSegmentId, pid, ty, payload.getD []⟩],
            nextSegmentId := work.nextSegmentId + 1 }
          (k + 1)
      else none
    else insertSegments ok pid rest work k

/-- `save_podcast` (database.py, lines 49–84): one transaction — the
podcast INSERT (attempt 0), then one segment INSERT per truthy payload in
order intro, hosts_discussion, outro.  On any failure the transaction is
rolled back (the store is returned unchanged) and the error re-raised;
on success the worked copy is committed and the new podcast id returned. -/
def save_podcast (db : PodcastDB) (ok : Nat → Bool) (title : String)
    (intro_audio hosts_audio outro_audio : Option Bytes) :
    PodcastDB × Except Unit Nat :=
  if ok 0 then
    let pid := db.nextPodcastId
    let work : PodcastDB :=
      { db with
        podcasts := db.podcasts ++ [⟨pid, title⟩],
        nextPodcastId := pid + 1 }
    match insertSegments ok pid
        [("intro", intro_audio), ("hosts_discussion", hosts_audio),
         ("outro", outro_audio)] work 1 with
    | some db' => (db', .ok pid)
    | none => (db, .error ())
  else (db, .error ())

/-- Spec-side: the segment payloads that get their own row — exactly the
truthy ones, in order. -/
def truthyList : List (String × Option Bytes) → List (String × Bytes)
  | [] => []
  | (ty, payload) :: rest =>
    if bytesTruthy payload then (ty, payload.getD []) :: truthyList rest
    else truthyList rest

def truthySegs (intro_audio hosts_audio outro_audio : Option Bytes) :
    List (String × Bytes) :=
  truthyList [("intro", intro_audio), ("hosts_discussion", hosts_audio),
    ("outro", outro_audio)]

/-- Spec-side: the segment rows for one saved podcast, ids consecutive. -/
def segRows (pid : Nat) : Nat → List (String × Bytes) → List SegmentRow
  | _, [] => []
  | sid, (ty, b) :: rest => ⟨sid, pid, ty, b⟩ :: segRows pid (sid + 1) rest

/-- Spec-side: INSERT attempts `k, k+1, ..., k+m-1` all succeed. -/
def oksFrom (ok : Nat → Bool) : Nat → Nat → Bool
  | _, 0 => true
  | k, m + 1 => ok k && oksFrom ok (k + 1) m

lemma insertSegments_eq_spec (ok : Nat → Bool) (pid : Nat) :
    ∀ (segs : List (String × Option Bytes)) (work : PodcastDB) (k : Nat),
    insertSegments ok pid segs work k =
      if oksFrom ok k (truthyList segs).length then
        some { work with
          segments := work.segments ++
            segRows pid work.nextSegmentId (truthyList segs),
          nextSegmentId := work.nextSegmentId + (truthyList segs).length }
      else none := by
  intro segs
  induction segs with
  | nil =>
      intro work k
      simp [insertSegments, truthyList, oksFrom, segRows]
  | cons hd tl ih =>
      intro work k
      rcases hd with ⟨ty, payload⟩
      by_cases htr : bytesTruthy payload
      · by_cases hok : ok k
        · simp only [insertSegments, htr, if_pos rfl, hok, if_true, ih,
            truthyList, oksFrom, List.length_cons, segRows]
          by_cases hoks : oksFrom ok (k + 1) (truthyList tl).length
          · simp [hok, hoks, segRows, List.append_assoc]
            omega
          · simp [hok, hoks]
        · simp only [insertSegments, htr, if_pos rfl, hok, if_false,
            truthyList, oksFrom, List.length_cons]
          simp [hok]
      · simp only [insertSegments, htr, if_neg, ih, truthyList]
        simp [htr]

/-- C10.  `save_podcast` is atomic: either every INSERT of the transaction
succeeds and the store gains the podcast row together with one segment row
per non-empty payload (in order intro, hosts_discussion, outro — empty or
absent payloads get no row), or some INSERT fails, the transaction is
rolled back leaving the store unchanged, and the error is re-raised. -/
theorem save_podcast_atomic (db : PodcastDB) (ok : Nat → Bool)
    (title : String) (intro_audio hosts_audio outro_audio : Option Bytes) :
    save_podcast db ok title intro_audio hosts_audio outro_audio =
      if ok 0 &&
          oksFrom ok 1 (truthySegs intro_audio hosts_audio outro_audio).length
      then
        ({ podcasts := db.podcasts ++ [⟨db.nextPodcastId, title⟩],
           segments := db.segments ++
             segRows db.nextPodcastId db.nextSegmentId
               (truthySegs intro_audio hosts_audio outro_audio),
           nextPodcastId := db.nextPodcastId + 1,
           nextSegmentId := db.nextSegmentId +
             (truthySegs intro_audio hosts_audio outro_audio).length },
         .ok db.nextPodcastId)
      else (db, .error ()) := by
  unfold save_podcast
  by_cases hok0 : ok 0
  · simp only [hok0, if_true]
    rw [insertSegments_eq_spec]
    by_cases hoks :
        oksFrom ok 1
          (truthyList [("intro", intro_audio),
            ("hosts_discussion", hosts_audio),
            ("outro", outro_audio)]).length = true
    · simp [truthySegs, hoks]
    · simp [truthySegs, hoks]
  · simp [hok0]

/-! ## Progress snapshots (app.py `step_5` lines 349–394,
database.py lines 140–173)

The TEXT columns of the progress table hold `json.dumps` of the script,
the config and the serialized clip list; `json.loads` on load is the exact
inverse on these values.  The columns are modelled as holding the parsed
JSON value (`Json` below); the encoders mirror what `json.dumps` receives
from the session, the decoders mirror how the app consumes the parsed
value after load. -/

inductive Json where
  | null
  | str : String → Json
  | num : ℚ → Json
  | arr : List Json → Json
  | obj : List (String × Json) → Json

def asStr : Json → Option String
  | .str s => some s
  | _ => none

def asNum : Json → Option ℚ
  | .num q => some q
  | _ => none

/-- One script line as stored: `{'speaker': ..., 'text': ...}` plus the
`uid` key when the line has one. -/
def encodeLine (l : Line) : Json :=
  .obj ([("speaker", .str l.speaker), ("text", .str l.text)] ++
    (match l.uid with
     | none => []
     | some u => [("uid", .str u)]))

def decodeLine (j : Json) : Option Line :=
  match j with
  | .obj fields =>
    match (fields.lookup "speaker").bind asStr,
        (fields.lookup "text").bind asStr with
    | some s, some t => some ⟨s, t, (fields.lookup "uid").bind asStr⟩
    | _, _ => none
  | _ => none

def encodeScript (s : List Line) : Json := .arr (s.map encodeLine)

def decodeLines : List Json → Option (List Line)
  | [] => some []
  | j :: rest =>
    match decodeLine j, decodeLines rest with
    | some l, some ls => some (l :: ls)
    | _, _ => none

def decodeScript : Json → Option (List Line)
  | .arr xs => decodeLines xs
  | _ => none

def encodeParams (p : VoiceParams) : Json :=
  .obj [("stability", .num p.stability),
    ("similarity_boost", .num p.similarity_boost),
    ("style", .num p.style)]

def decodeParams (j : Json) : Option VoiceParams :=
  match j with
  | .obj fields =>
    match (fields.lookup "stability").bind asNum,
        (fields.lookup "similarity_boost").bind asNum,
        (fields.lookup "style").bind asNum with
    | some st, some si, some sy => some ⟨st, si, sy⟩
    | _, _, _ => none
  | _ => none

def encodeStrMap (m : List (String × String)) : Json :=
  .obj (m.map fun kv => (kv.1, .str kv.2))

def decodeStrPairs : List (String × Json) → Option (List (String × String))
  | [] => some []
  | (k, v) :: rest =>
    match asStr v, decodeStrPairs rest with
    | some s, some tail => some ((k, s) :: tail)
    | _, _ => none

def decodeStrMap : Json → Option (List (String × String))
  | .obj fields => decodeStrPairs fields
  | _ => none

def encodeParamsMap (m : List (String × VoiceParams)) : Json :=
  .obj (m.map fun kv => (kv.1, encodeParams kv.2))

def decodeParamsPairs :
    List (String × Json) → Option (List (String × VoiceParams))
  | [] => some []
  | (k, v) :: rest =>
    match decodeParams v, decodeParamsPairs rest with
    | some p, some tail => some ((k, p) :: tail)
    | _, _ => none

def decodeParamsMap : Json → Option (List (String × VoiceParams))
  | .obj fields => decodeParamsPairs fields
  | _ => none

/-- The session config dict as stored (`intro_music` is constantly
`None`). -/
def encodeConfig (c : Config) : Json :=
  .obj [("intro_text", .str c.intro_text),
    ("intro_voice", .str c.intro_voice),
    ("outro_text", .str c.outro_text),
    ("outro_voice", .str c.outro_voice),
    ("intro_music", .null),
    ("podcasters", encodeStrMap c.podcasters),
    ("voice_settings", encodeParams c.voice_settings),
    ("voice_settings_per_speaker",
      encodeParamsMap c.voice_settings_per_speaker)]

def decodeConfig (j : Json) : Option Config :=
  match j with
  | .obj fields =>
    match (fields.lookup "intro_text").bind asStr,
        (fields.lookup "intro_voice").bind asStr,
        (fields.lookup "outro_text").bind asStr,
        (fields.lookup "outro_voice").bind asStr,
        (fields.lookup "voice_settings").bind decodeParams,
        (fields.lookup "podcasters").bind decodeStrMap,
        (fields.lookup "voice_settings_per_speaker").bind decodeParamsMap with
    | some a, some b, some c1, some d, some vs, some pods, some vsps =>
        some ⟨a, b, c1, d, vs, pods, vsps⟩
    | _, _, _, _, _, _, _ => none
  | _ => none

/-- One serialized clip `(label, base64-mp3-or-None)` as stored: a Python
tuple dumps to a JSON array. -/
def encodeClipPair (kv : String × Option String) : Json :=
  .arr [.str kv.1,
    match kv.2 with
    | none => .null
    | some b => .str b]

def encodeClips (segs : List (String × Option String)) : Json :=
  .arr (segs.map encodeClipPair)

def decodeClipPair : Json → Option (String × Option String)
  | .arr [.str l, .null] => some (l, none)
  | .arr [.str l, .str b] => some (l, some b)
  | _ => none

def decodeClipList : List Json → Option (List (String × Option String))
  | [] => some []
  | j :: rest =>
    match decodeClipPair j, decodeClipList rest with
    | some p, some tail => some (p :: tail)
    | _, _ => none

def decodeClips : Json → Option (List (String × Option String))
  | .arr xs => decodeClipList xs
  | _ => none

lemma decodeLine_encode (l : Line) : decodeLine (encodeLine l) = some l := by
  obtain ⟨s, t, u⟩ := l
  cases u <;> rfl

lemma decodeLines_encode (ls : List Line) :
    decodeLines (ls.map encodeLine) = some ls := by
  induction ls with
  | nil => rfl
  | cons l rest ih => simp [decodeLines, decodeLine_encode, ih]

lemma decodeScript_encode (s : List Line) :
    decodeScript (encodeScript s) = some s := by
  simp [encodeScript, decodeScript, decodeLines_encode]

lemma decodeParams_encode (p : VoiceParams) :
    decodeParams (encodeParams p) = some p := rfl

lemma decodeStrMap_encode (m : List (String × String)) :
    decodeStrMap (encodeStrMap m) = some m := by
  show decodeStrPairs (m.map fun kv => (kv.1, .str kv.2)) = some m
  induction m with
  | nil => rfl
  | cons kv rest ih =>
      rcases kv with ⟨k, v⟩
      simp [decodeStrPairs, asStr, ih]

lemma decodeParamsMap_encode (m : List (String × VoiceParams)) :
    decodeParamsMap (encodeParamsMap m) = some m := by
  show decodeParamsPairs (m.map fun kv => (kv.1, encodeParams kv.2)) = some m
  induction m with
  | nil => rfl
  | cons kv rest ih =>
      rcases kv with ⟨k, v⟩
      simp [decodeParamsPairs, decodeParams_encode, ih]

lemma decodeConfig_encode (c : Config) :
    decodeConfig (encodeConfig c) = some c := by
  have h1 := decodeStrMap_encode c.podcasters
  have h2 := decodeParamsMap_encode c.voice_settings_per_speaker
  simp +decide [encodeConfig, decodeConfig, asStr, h1, h2,
    decodeParams_encode, List.lookup]

lemma decodeClipPair_encode (kv : String × Option String) :
    decodeClipPair (encodeClipPair kv) = some kv := by
  rcases kv with ⟨l, b⟩
  cases b <;> rfl

lemma decodeClips_encode (segs : List (String × Option String)) :
    decodeClips (encodeClips segs) = some segs := by
  show decodeClipList (segs.map encodeClipPair) = some segs
  induction segs with
  | nil => rfl
  | cons kv rest ih => simp [decodeClipList, decodeClipPair_encode, ih]

/-- One row of the progress table. -/
structure ProgressRow where
  id : Nat
  name : String
  script : Json
  config : Json
  audio_segments : Option Json
  created_at : String

/-- The progress table with its AUTOINCREMENT counter. -/
structure ProgressDB where
  rows : List ProgressRow
  nextId : Nat

/-- `save_progress` (database.py, lines 150–159): INSERT one row; a falsy
clip list (None or empty) is stored as NULL. -/
def save_progress (db : ProgressDB) (name : String) (script : List Line)
    (config : Config) (audio_segments : List (String × Option String))
    (now : String) : ProgressDB :=
  { rows := db.rows ++
      [⟨db.nextId, name, encodeScript script, encodeConfig config,
        (if audio_segments.isEmpty then none
         else some (encodeClips audio_segments)), now⟩],
    nextId := db.nextId + 1 }

/-- `load_progress_by_id` (database.py, lines 161–173): the parsed JSON
values of the matching row, or `None`. -/
def load_progress_by_id (db : ProgressDB) (pid : Nat) :
    Option (Json × Json × Option Json) :=
  (db.rows.find? fun r => r.id == pid).map fun r =>
    (r.script, r.config, r.audio_segments)

lemma find?_append_none {α} (p : α → Bool) (l₁ l₂ : List α)
    (h : l₁.find? p = none) : (l₁ ++ l₂).find? p = l₂.find? p := by
  simp [List.find?_append, h]

/-- C9.  `save_progress` followed by `load_progress_by_id` of the new
record returns the stored script, config and serialized clip list exactly
(presence/absence markers and base64 audio payloads byte-identical), and
the app-side decoding of the returned values restores the original script,
config and clip list.  The hypothesis says the AUTOINCREMENT counter is
fresh — true of every reachable store. -/
theorem progress_save_load_roundtrip (db : ProgressDB) (name : String)
    (script : List Line) (config : Config)
    (segs : List (String × Option String)) (now : String)
    (hwf : ∀ r ∈ db.rows, r.id < db.nextId) :
    load_progress_by_id (save_progress db name script config segs now)
        db.nextId =
      some (encodeScript script, encodeConfig config,
        if segs.isEmpty then none else some (encodeClips segs)) ∧
    decodeScript (encodeScript script) = some script ∧
    decodeConfig (encodeConfig config) = some config ∧
    decodeClips (encodeClips segs) = some segs := by
  refine ⟨?_, decodeScript_encode script, decodeConfig_encode config,
    decodeClips_encode segs⟩
  unfold load_progress_by_id save_progress
  have hnone : db.rows.find? (fun r => r.id == db.nextId) = none := by
    rw [List.find?_eq_none]
    intro r hr
    have := hwf r hr
    simp [Nat.ne_of_lt this]
  rw [find?_append_none _ _ _ hnone]
  simp [List.find?]

/-- Witness for C9 on a concrete store and snapshot. -/
theorem progress_save_load_roundtrip_witness :
    load_progress_by_id
        (save_progress ⟨[], 0⟩ "session" [⟨"HostA", "Hi", some "u1"⟩]
          c1Config [("Line 1", some "QUFB"), ("Line 2", none)] "2024-01-01")
        0 =
      some (encodeScript [⟨"HostA", "Hi", some "u1"⟩], encodeConfig c1Config,
        if ([("Line 1", some "QUFB"), ("Line 2", none)] :
            List (String × Option String)).isEmpty then none
        else some (encodeClips [("Line 1", some "QUFB"), ("Line 2", none)])) ∧
    decodeScript (encodeScript [⟨"HostA", "Hi", some "u1"⟩]) =
      some [⟨"HostA", "Hi", some "u1"⟩] ∧
    decodeConfig (encodeConfig c1Config) = some c1Config ∧
    decodeClips (encodeClips [("Line 1", some "QUFB"), ("Line 2", none)]) =
      some [("Line 1", some "QUFB"), ("Line 2", none)] :=
  progress_save_load_roundtrip ⟨[], 0⟩ "session" [⟨"HostA", "Hi", some "u1"⟩]
    c1Config [("Line 1", some "QUFB"), ("Line 2", none)] "2024-01-01"
    (by simp)

end PodcastGen
